import Mathlib

/-!
# Daily Activity Management System: the `ActivityOrganizer` store

A shallow embedding of the data-management core of `src/script.js`
(class `ActivityOrganizer`) together with theorems about it.

Conventions of the embedding.

* The object's fields `activities` and `activeFilters` form the state `Organizer`.
* Calls into the browser whose result the code consumes are arguments of the
  embedded method: `generateUniqueId()` is `newId`, `new Date().toISOString()` is `now`,
  `confirm(..)` is `confirmed`, `prompt(..)` is `reply`, `new FormData(form)` is `FormInput`,
  `localStorage.getItem(..)` is `stored`.
* A JavaScript string is a Lean `String`; every character the code inspects lies in the
  Basic Multilingual Plane, where code points and UTF-16 code units coincide.
* Calls made for their effect only (`persistToStorage`, `renderActivities`, `updateSummary`,
  `toggleEmptyState`, `form.reset`, `displayMessage`) are recorded, in program order, in the
  list of `Effect`s that every embedded method returns next to the new state.
-/

set_option autoImplicit false

namespace ActivityOrganizer

/-! ## JavaScript strings -/

/-- Code points removed by `String.prototype.trim`: the ECMAScript `WhiteSpace` and
`LineTerminator` productions (TAB, VT, FF, ZWNBSP, the `Zs` category, LF, CR, LS, PS). -/
def isTrimChar (c : Char) : Bool :=
  let n := c.toNat
  n == 0x09 || n == 0x0A || n == 0x0B || n == 0x0C || n == 0x0D || n == 0x20 ||
  n == 0xA0 || n == 0x1680 || (0x2000 ≤ n && n ≤ 0x200A) || n == 0x2028 || n == 0x2029 ||
  n == 0x202F || n == 0x205F || n == 0x3000 || n == 0xFEFF

/-- The function `String.prototype.trim` on a list of characters. -/
def trimChars (cs : List Char) : List Char :=
  ((cs.dropWhile isTrimChar).reverse.dropWhile isTrimChar).reverse

/-- The method `s.trim()`. -/
def jsTrim (s : String) : String := ⟨trimChars s.data⟩

/-- JavaScript truthiness of a value that is a string or `null`, as tested by `!x`:
`null` and the empty string are falsy, every other string is truthy. -/
def truthy : Option String → Bool
  | none => false
  | some s => s != ""

/-! ## Data model -/

/-- An activity record, with the field names of the object literal in `createNewActivity`. -/
structure Activity where
  uniqueId : String
  name : String
  type : String
  priority : String
  notes : String
  isCompleted : Bool
  createdTimestamp : String
  completedTimestamp : Option String
  deriving DecidableEq, Repr

/-- The field `activeFilters`; the empty string means "no filter". -/
structure Filters where
  type : String
  priority : String
  deriving DecidableEq, Repr

/-- The two kinds of notification the store raises through `displayMessage`. -/
inductive MessageType
  | success
  | error
  deriving DecidableEq, Repr

/-- Calls made for their effect, in program order. `persistToStorage` carries the
collection it serialises. -/
inductive Effect
  | persistToStorage (activities : List Activity)
  | renderActivities
  | updateSummary
  | toggleEmptyState
  | formReset
  | displayMessage (message : String) (type : MessageType)
  deriving DecidableEq, Repr

/-- The mutable fields of an `ActivityOrganizer` instance. -/
structure Organizer where
  activities : List Activity
  activeFilters : Filters
  deriving DecidableEq, Repr

/-- What `new FormData(form)` hands to `createNewActivity`. The entries `activityName` and
`activityNotes` are text (the code calls `.trim()` on them); `activityType` and
`priorityLevel` are a string, or `null` when the control submits no entry (no radio
button checked). -/
structure FormInput where
  activityName : String
  activityType : Option String
  priorityLevel : Option String
  activityNotes : String
  deriving DecidableEq, Repr

/-- The state right after construction when nothing is stored. -/
def Organizer.empty : Organizer := ⟨[], ⟨"", ""⟩⟩

/-! ## Operations -/

/-- The method `createNewActivity` (lines 54-89). -/
def createNewActivity (st : Organizer) (form : FormInput) (newId now : String) :
    Organizer × List Effect :=
  let name := jsTrim form.activityName
  let notes := jsTrim form.activityNotes
  if !truthy (some name) || !truthy form.activityType || !truthy form.priorityLevel then
    (st, [Effect.displayMessage "Please complete all required fields!" MessageType.error])
  else
    let newActivity : Activity :=
      { uniqueId := newId
        name := name
        type := form.activityType.getD ""
        priority := form.priorityLevel.getD ""
        notes := notes
        isCompleted := false
        createdTimestamp := now
        completedTimestamp := none }
    let activities := newActivity :: st.activities
    ({ st with activities := activities },
      [Effect.persistToStorage activities, Effect.renderActivities, Effect.updateSummary,
        Effect.toggleEmptyState, Effect.formReset,
        Effect.displayMessage "Activity created successfully!" MessageType.success])

/-- The assignments of lines 94-95 on the activity found. -/
def Activity.toggle (a : Activity) (now : String) : Activity :=
  let isCompleted := !a.isCompleted
  { a with isCompleted := isCompleted
           completedTimestamp := if isCompleted then some now else none }

/-- The method `toggleActivityStatus` (lines 91-100): `find` yields the first activity whose
`uniqueId` is strictly equal to `activityId`; that object is updated in place. -/
def toggleActivityStatus (st : Organizer) (activityId now : String) :
    Organizer × List Effect :=
  match st.activities.findIdx? (fun a => a.uniqueId == activityId) with
  | none => (st, [])
  | some i =>
    let activities := st.activities.modify (fun a => a.toggle now) i
    ({ st with activities := activities },
      [Effect.persistToStorage activities, Effect.renderActivities, Effect.updateSummary])

/-- The method `removeActivity` (lines 102-111); `confirmed` is the answer of `confirm`. -/
def removeActivity (st : Organizer) (activityId : String) (confirmed : Bool) :
    Organizer × List Effect :=
  if confirmed then
    let activities := st.activities.filter (fun a => a.uniqueId != activityId)
    ({ st with activities := activities },
      [Effect.persistToStorage activities, Effect.renderActivities, Effect.updateSummary,
        Effect.toggleEmptyState,
        Effect.displayMessage "Activity removed successfully!" MessageType.success])
  else (st, [])

/-- The method `modifyActivity` (lines 113-124); `reply` is the answer of `prompt`
(`none` for `null`, when the dialog is cancelled). -/
def modifyActivity (st : Organizer) (activityId : String) (reply : Option String) :
    Organizer × List Effect :=
  match st.activities.findIdx? (fun a => a.uniqueId == activityId) with
  | none => (st, [])
  | some i =>
    match reply with
    | none => (st, [])
    | some newName =>
      if jsTrim newName != "" then
        let activities := st.activities.modify (fun a => { a with name := jsTrim newName }) i
        ({ st with activities := activities },
          [Effect.persistToStorage activities, Effect.renderActivities,
            Effect.displayMessage "Activity updated successfully!" MessageType.success])
      else (st, [])

/-- The method `getFilteredActivities` (lines 133-141). -/
def getFilteredActivities (st : Organizer) : List Activity :=
  st.activities.filter fun activity =>
    let typeMatch := !truthy (some st.activeFilters.type) ||
      activity.type == st.activeFilters.type
    let priorityMatch := !truthy (some st.activeFilters.priority) ||
      activity.priority == st.activeFilters.priority
    typeMatch && priorityMatch

/-- The three numbers `updateSummary` writes into the page. -/
structure Summary where
  total : Int
  completed : Int
  pending : Int
  deriving DecidableEq, Repr

/-- The computation of `updateSummary` (lines 229-232). -/
def summary (st : Organizer) : Summary :=
  let totalActivities : Int := st.activities.length
  let completedActivities : Int := (st.activities.filter fun a => a.isCompleted).length
  let pendingActivities := totalActivities - completedActivities
  ⟨totalActivities, completedActivities, pendingActivities⟩

/-- Replace the first element satisfying `p` by its image under `f`: the list-level reading
of "`find` the object, then assign to its fields". -/
def updateFirst {α : Type} (p : α → Bool) (f : α → α) : List α → List α
  | [] => []
  | a :: l => if p a then f a :: l else a :: updateFirst p f l

/-! ## Loading: `JSON.parse` and `loadFromStorage` -/

/-- A value produced by `JSON.parse`. A number keeps its lexeme (its value is the double
nearest to it), a string is its sequence of UTF-16 code units, and an object keeps its
members in textual order (on a repeated key the last member is the property's value). -/
inductive Json
  | null
  | bool (b : Bool)
  | number (lexeme : List Char)
  | string (units : List Nat)
  | array (elements : List Json)
  | object (members : List (List Nat × Json))
  deriving Repr

/-- How an evaluation of the parser can end without a value: `syntaxError` is the
`SyntaxError` exception thrown by `JSON.parse`; `fuel` says that the recursion budget of
the embedding ran out (excluded for `jsonParse` by `jsonParse_ne_fuel`). -/
inductive ParseError
  | syntaxError
  | fuel
  deriving DecidableEq, Repr

/-- The JSON white space characters: space, TAB, LF, CR. -/
def isJsonWs (c : Char) : Bool :=
  c == ' ' || c == '\t' || c == '\n' || c == '\r'

/-- Skip JSON white space. -/
def skipWs (cs : List Char) : List Char := cs.dropWhile isJsonWs

/-- Value of a hexadecimal digit. -/
def hexVal (c : Char) : Option Nat :=
  let n := c.toNat
  if 48 ≤ n && n ≤ 57 then some (n - 48)
  else if 97 ≤ n && n ≤ 102 then some (n - 87)
  else if 65 ≤ n && n ≤ 70 then some (n - 55)
  else none

/-- UTF-16 code units of a code point. -/
def utf16 (c : Char) : List Nat :=
  let n := c.toNat
  if n < 0x10000 then [n]
  else [0xD800 + (n - 0x10000) / 0x400, 0xDC00 + (n - 0x10000) % 0x400]

/-- Code unit denoted by a single-character escape. -/
def escapeVal (c : Char) : Option Nat :=
  if c == '"' then some 0x22
  else if c == '\\' then some 0x5C
  else if c == '/' then some 0x2F
  else if c == 'b' then some 0x08
  else if c == 'f' then some 0x0C
  else if c == 'n' then some 0x0A
  else if c == 'r' then some 0x0D
  else if c == 't' then some 0x09
  else none

/-- The characters of a JSON string after its opening quote, up to and including the
closing quote; `acc` holds the code units read so far. -/
def parseStringBody : List Char → List Nat → Option (List Nat × List Char)
  | [], _ => none
  | c :: cs, acc =>
    if c == '"' then some (acc, cs)
    else if c == '\\' then
      match cs with
      | [] => none
      | e :: cs1 =>
        if e == 'u' then
          match cs1 with
          | h1 :: h2 :: h3 :: h4 :: cs2 =>
            match hexVal h1, hexVal h2, hexVal h3, hexVal h4 with
            | some a, some b, some c, some d =>
              parseStringBody cs2 (acc ++ [((a * 16 + b) * 16 + c) * 16 + d])
            | _, _, _, _ => none
          | _ => none
        else
          match escapeVal e with
          | some u => parseStringBody cs1 (acc ++ [u])
          | none => none
    else if c.toNat < 0x20 then none
    else parseStringBody cs (acc ++ utf16 c)

/-- The integer part of a JSON number: `0`, or a non-zero digit followed by digits. -/
def parseInt : List Char → Option (List Char × List Char)
  | [] => none
  | d :: r =>
    if d == '0' then some ([d], r)
    else if d.isDigit then some (d :: r.takeWhile Char.isDigit, r.dropWhile Char.isDigit)
    else none

/-- The optional fraction of a JSON number: `.` followed by at least one digit. -/
def parseFrac : List Char → Option (List Char × List Char)
  | '.' :: r =>
    if (r.takeWhile Char.isDigit).isEmpty then none
    else some ('.' :: r.takeWhile Char.isDigit, r.dropWhile Char.isDigit)
  | cs => some ([], cs)

/-- The optional sign of an exponent. -/
def parseExpSign : List Char → List Char × List Char
  | '+' :: r => (['+'], r)
  | '-' :: r => (['-'], r)
  | cs => ([], cs)

/-- The optional exponent of a JSON number: `e` or `E`, an optional sign, at least one
digit. -/
def parseExp : List Char → Option (List Char × List Char)
  | [] => some ([], [])
  | e :: r =>
    if e == 'e' || e == 'E' then
      if ((parseExpSign r).2.takeWhile Char.isDigit).isEmpty then none
      else some (e :: (parseExpSign r).1 ++ (parseExpSign r).2.takeWhile Char.isDigit,
        (parseExpSign r).2.dropWhile Char.isDigit)
    else some ([], e :: r)

/-- The optional minus sign of a JSON number. -/
def parseMinus : List Char → List Char × List Char
  | '-' :: r => (['-'], r)
  | cs => ([], cs)

/-- A JSON number at the head of the input: its lexeme and the rest of the input. -/
def parseNumber (cs : List Char) : Option (List Char × List Char) :=
  match parseInt (parseMinus cs).2 with
  | none => none
  | some (int, cs2) =>
    match parseFrac cs2 with
    | none => none
    | some (frac, cs3) =>
      match parseExp cs3 with
      | none => none
      | some (exp, cs4) => some ((parseMinus cs).1 ++ int ++ frac ++ exp, cs4)

mutual

/-- A JSON value, possibly preceded by white space. -/
def parseValue : Nat → List Char → Except ParseError (Json × List Char)
  | 0, _ => .error .fuel
  | fuel + 1, cs =>
    match skipWs cs with
    | [] => .error .syntaxError
    | 'n' :: 'u' :: 'l' :: 'l' :: r => .ok (Json.null, r)
    | 't' :: 'r' :: 'u' :: 'e' :: r => .ok (Json.bool true, r)
    | 'f' :: 'a' :: 'l' :: 's' :: 'e' :: r => .ok (Json.bool false, r)
    | c :: r =>
      if c == '"' then
        match parseStringBody r [] with
        | some (u, r1) => .ok (Json.string u, r1)
        | none => .error .syntaxError
      else if c == '[' then
        match skipWs r with
        | ']' :: r1 => .ok (Json.array [], r1)
        | _ => parseElements fuel r []
      else if c == '{' then
        match skipWs r with
        | '}' :: r1 => .ok (Json.object [], r1)
        | _ => parseMembers fuel r []
      else
        match parseNumber (c :: r) with
        | some (lexeme, r1) => .ok (Json.number lexeme, r1)
        | none => .error .syntaxError

/-- The elements of a non-empty array after `[`, up to and including `]`. -/
def parseElements : Nat → List Char → List Json → Except ParseError (Json × List Char)
  | 0, _, _ => .error .fuel
  | fuel + 1, cs, acc =>
    match parseValue fuel cs with
    | .error e => .error e
    | .ok (v, r) =>
      match skipWs r with
      | ',' :: r1 => parseElements fuel r1 (acc ++ [v])
      | ']' :: r1 => .ok (Json.array (acc ++ [v]), r1)
      | _ => .error .syntaxError

/-- The members of a non-empty object after `{`, up to and including `}`. -/
def parseMembers : Nat → List Char → List (List Nat × Json) →
    Except ParseError (Json × List Char)
  | 0, _, _ => .error .fuel
  | fuel + 1, cs, acc =>
    match skipWs cs with
    | '"' :: r =>
      match parseStringBody r [] with
      | none => .error .syntaxError
      | some (key, r1) =>
        match skipWs r1 with
        | ':' :: r2 =>
          match parseValue fuel r2 with
          | .error e => .error e
          | .ok (v, r3) =>
            match skipWs r3 with
            | ',' :: r4 => parseMembers fuel r4 (acc ++ [(key, v)])
            | '}' :: r4 => .ok (Json.object (acc ++ [(key, v)]), r4)
            | _ => .error .syntaxError
        | _ => .error .syntaxError
    | _ => .error .syntaxError

end

/-- The function `JSON.parse` on a string: one JSON value surrounded by optional white
space, anything else is a `SyntaxError`. -/
def jsonParse (text : String) : Except ParseError Json :=
  match parseValue (2 * text.length + 1) text.data with
  | .error e => .error e
  | .ok (v, r) => if (skipWs r).isEmpty then .ok v else .error .syntaxError

/-- The method `loadFromStorage` (lines 256-259); `stored` is the result of
`localStorage.getItem('dailyActivities')`, `none` for `null`. -/
def loadFromStorage (stored : Option String) : Except ParseError Json :=
  match stored with
  | none => .ok (Json.array [])
  | some text => if truthy (some text) then jsonParse text else .ok (Json.array [])

/-! ## Predicates used in the statements -/

/-- The invariant of section 3: `isCompleted` is true exactly when `completedTimestamp`
is present. -/
def Activity.consistent (a : Activity) : Bool :=
  a.isCompleted == a.completedTimestamp.isSome

/-- The form passes the guard of line 70 (the negation of its condition). -/
def FormInput.complete (form : FormInput) : Bool :=
  truthy (some (jsTrim form.activityName)) && truthy form.activityType &&
    truthy form.priorityLevel

/-! ## Auxiliary facts -/

theorem truthy_some (s : String) : truthy (some s) = true ↔ s ≠ "" := by
  simp [truthy]

theorem jsTrim_empty : jsTrim "" = "" := by decide

theorem ne_empty_of_jsTrim_ne_empty {s : String} (h : jsTrim s ≠ "") : s ≠ "" := by
  intro hs
  exact h (hs ▸ jsTrim_empty)

theorem findIdx?_modify_eq_updateFirst {α : Type} (p : α → Bool) (f : α → α) (l : List α) :
    (match l.findIdx? p with
      | none => l
      | some i => l.modify f i) = updateFirst p f l := by
  induction l with
  | nil => rfl
  | cons a l ih =>
    by_cases h : p a = true
    · simp [List.findIdx?_cons, h, updateFirst]
    · simp only [List.findIdx?_cons, h, updateFirst, List.findIdx?_succ, if_false]
      rw [← ih]
      cases List.findIdx? p l <;> simp

theorem toggleActivityStatus_activities (st : Organizer) (activityId now : String) :
    (toggleActivityStatus st activityId now).1.activities =
      updateFirst (fun a => a.uniqueId == activityId) (fun a => a.toggle now)
        st.activities := by
  rw [← findIdx?_modify_eq_updateFirst]
  unfold toggleActivityStatus
  cases List.findIdx? (fun a => a.uniqueId == activityId) st.activities <;> rfl

theorem modifyActivity_activities (st : Organizer) (activityId newName : String)
    (h : jsTrim newName ≠ "") :
    (modifyActivity st activityId (some newName)).1.activities =
      updateFirst (fun a => a.uniqueId == activityId)
        (fun a => { a with name := jsTrim newName }) st.activities := by
  rw [← findIdx?_modify_eq_updateFirst]
  unfold modifyActivity
  cases List.findIdx? (fun a => a.uniqueId == activityId) st.activities <;> simp [h]

theorem mem_updateFirst {α : Type} (p : α → Bool) (f : α → α) (l : List α) (b : α)
    (hb : b ∈ updateFirst p f l) : b ∈ l ∨ ∃ a ∈ l, b = f a := by
  induction l with
  | nil => simp [updateFirst] at hb
  | cons a l ih =>
    by_cases h : p a = true
    · simp only [updateFirst, h, if_true, List.mem_cons] at hb
      rcases hb with hb | hb
      · exact Or.inr ⟨a, List.mem_cons_self a l, hb⟩
      · exact Or.inl (List.mem_cons_of_mem a hb)
    · simp only [updateFirst, h, Bool.false_eq_true, if_false, List.mem_cons] at hb
      rcases hb with hb | hb
      · exact Or.inl (hb ▸ List.mem_cons_self a l)
      · rcases ih hb with h1 | ⟨c, hc, hbc⟩
        · exact Or.inl (List.mem_cons_of_mem a h1)
        · exact Or.inr ⟨c, List.mem_cons_of_mem a hc, hbc⟩

theorem updateFirst_eq_append {α : Type} (p : α → Bool) (f : α → α) (l : List α)
    (h : ∃ a ∈ l, p a = true) :
    ∃ pre a post, l = pre ++ a :: post ∧ (∀ b ∈ pre, p b = false) ∧ p a = true ∧
      updateFirst p f l = pre ++ f a :: post := by
  induction l with
  | nil => simp at h
  | cons a l ih =>
    by_cases ha : p a = true
    · exact ⟨[], a, l, rfl, by simp, ha, by simp [updateFirst, ha]⟩
    · have h' : ∃ b ∈ l, p b = true := by
        rcases h with ⟨b, hb, hpb⟩
        rcases List.mem_cons.1 hb with rfl | hb
        · exact absurd hpb ha
        · exact ⟨b, hb, hpb⟩
      rcases ih h' with ⟨pre, b, post, hl, hpre, hpb, hu⟩
      refine ⟨a :: pre, b, post, by simp [hl], ?_, hpb, by simp [updateFirst, ha, hu]⟩
      intro c hc
      rcases List.mem_cons.1 hc with rfl | hc
      · simpa using ha
      · exact hpre c hc

theorem updateFirst_updateFirst {α : Type} (p : α → Bool) (f g : α → α) (l : List α)
    (hf : ∀ a, p (f a) = p a) :
    updateFirst p g (updateFirst p f l) = updateFirst p (fun a => g (f a)) l := by
  induction l with
  | nil => rfl
  | cons a l ih =>
    by_cases h : p a = true
    · simp [updateFirst, h, hf]
    · simp [updateFirst, h, ih]

theorem beq_id_false_of_ne (activityId : String) (l : List Activity)
    (h : ∀ a ∈ l, a.uniqueId ≠ activityId) :
    ∀ a ∈ l, (fun a : Activity => a.uniqueId == activityId) a = false := by
  intro a ha
  simpa using h a ha

theorem exists_beq_id_of_mem (activityId : String) (l : List Activity)
    (h : ∃ a ∈ l, a.uniqueId = activityId) :
    ∃ a ∈ l, (fun a : Activity => a.uniqueId == activityId) a = true := by
  rcases h with ⟨a, ha, hid⟩
  exact ⟨a, ha, by simpa using hid⟩

theorem toggle_toggle (a : Activity) (now1 now2 : String) :
    (a.toggle now1).toggle now2 =
      { a with completedTimestamp := if a.isCompleted then some now2 else none } := by
  cases a with
  | mk uniqueId name type priority notes isCompleted createdTimestamp completedTimestamp =>
    cases isCompleted <;> simp [Activity.toggle]

theorem filter_not_eq_append_of_countP_one {α : Type} (p : α → Bool) (l : List α)
    (h : l.countP p = 1) :
    ∃ pre a post, l = pre ++ a :: post ∧ p a = true ∧
      l.filter (fun b => !p b) = pre ++ post := by
  induction l with
  | nil => simp at h
  | cons a l ih =>
    by_cases ha : p a = true
    · have h0 : l.countP p = 0 := by
        rw [List.countP_cons_of_pos _ _ ha] at h
        omega
      have hall : ∀ b ∈ l, (fun b => !p b) b = true := by
        intro b hb
        have := List.countP_eq_zero.1 h0 b hb
        simpa using this
      exact ⟨[], a, l, rfl, ha, by simp [List.filter_cons, ha, List.filter_eq_self.2 hall]⟩
    · rw [List.countP_cons_of_neg _ _ ha] at h
      rcases ih h with ⟨pre, b, post, hl, hb, hf⟩
      exact ⟨a :: pre, b, post, by simp [hl], hb, by simp [List.filter_cons, ha, hf]⟩

theorem not_truthy_or_beq (filter value : String) :
    (!truthy (some filter) || value == filter) = decide (filter ≠ "" → value = filter) := by
  by_cases h : filter = ""
  · simp [truthy, h]
  · have h' : (filter != "") = true := by simpa using h
    simp only [truthy, h', Bool.not_true, Bool.false_or, ne_eq, h, not_false_eq_true,
      forall_const]
    by_cases hv : value = filter <;> simp [hv]

theorem createNewActivity_complete (st : Organizer) (form : FormInput) (newId now : String)
    (h : form.complete = true) :
    ∃ a : Activity, a.uniqueId = newId ∧ a.isCompleted = false ∧
      (createNewActivity st form newId now).1.activities = a :: st.activities := by
  have h' : (!truthy (some (jsTrim form.activityName)) || !truthy form.activityType ||
      !truthy form.priorityLevel) = false := by
    simp only [FormInput.complete, Bool.and_eq_true] at h
    simp [h.1.1, h.1.2, h.2]
  exact ⟨⟨newId, jsTrim form.activityName, form.activityType.getD "",
    form.priorityLevel.getD "", jsTrim form.activityNotes, false, now, none⟩, rfl, rfl,
    by simp only [createNewActivity, h', Bool.false_eq_true, if_false]⟩

/-! ## The parser terminates within its budget -/

theorem skipWs_length_le (cs : List Char) : (skipWs cs).length ≤ cs.length :=
  (List.dropWhile_sublist _).length_le

theorem dropWhile_length_le (p : Char → Bool) (cs : List Char) :
    (cs.dropWhile p).length ≤ cs.length :=
  (List.dropWhile_sublist _).length_le

theorem parseStringBody_length (n : Nat) :
    ∀ (cs : List Char) (acc u : List Nat) (r : List Char), cs.length ≤ n →
      parseStringBody cs acc = some (u, r) → r.length < cs.length := by
  induction n with
  | zero =>
    intro cs acc u r hlen h
    cases cs with
    | nil => simp [parseStringBody] at h
    | cons c cs => simp at hlen
  | succ n ih =>
    intro cs acc u r hlen h
    cases cs with
    | nil => simp [parseStringBody] at h
    | cons c cs =>
      rw [parseStringBody.eq_def] at h; simp only at h
      simp only [List.length_cons] at hlen ⊢
      split at h
      · simp only [Option.some.injEq, Prod.mk.injEq] at h
        rw [← h.2]
        omega
      · split at h
        · split at h
          · simp at h
          · split at h
            · split at h
              · split at h
                · have := ih _ _ _ _ (by simp only [List.length_cons] at hlen ⊢; omega) h
                  simp only [List.length_cons]
                  omega
                · simp at h
              · simp at h
            · split at h
              · have := ih _ _ _ _ (by simp only [List.length_cons] at hlen ⊢; omega) h
                simp only [List.length_cons]
                omega
              · simp at h
        · split at h
          · simp at h
          · have := ih _ _ _ _ (by omega) h
            omega

theorem parseInt_length (cs int r : List Char) (h : parseInt cs = some (int, r)) :
    r.length < cs.length := by
  cases cs with
  | nil => simp [parseInt] at h
  | cons d cs =>
    simp only [parseInt] at h
    split at h
    · simp only [Option.some.injEq, Prod.mk.injEq] at h
      simp [← h.2]
    · split at h
      · simp only [Option.some.injEq, Prod.mk.injEq] at h
        have := dropWhile_length_le Char.isDigit cs
        simp only [← h.2, List.length_cons]
        omega
      · simp at h

theorem parseFrac_length (cs frac r : List Char) (h : parseFrac cs = some (frac, r)) :
    r.length ≤ cs.length := by
  unfold parseFrac at h
  split at h
  · split at h
    · simp at h
    · simp only [Option.some.injEq, Prod.mk.injEq] at h
      rename_i r2 _
      have := dropWhile_length_le Char.isDigit r2
      simp only [← h.2, List.length_cons]
      omega
  · simp only [Option.some.injEq, Prod.mk.injEq] at h
    simp [← h.2]

theorem parseExpSign_length (cs : List Char) : (parseExpSign cs).2.length ≤ cs.length := by
  unfold parseExpSign
  split <;> simp

theorem parseExp_length (cs exp r : List Char) (h : parseExp cs = some (exp, r)) :
    r.length ≤ cs.length := by
  cases cs with
  | nil =>
    simp only [parseExp, Option.some.injEq, Prod.mk.injEq] at h
    simp [← h.2]
  | cons e cs =>
    simp only [parseExp] at h
    split at h
    · split at h
      · simp at h
      · simp only [Option.some.injEq, Prod.mk.injEq] at h
        have h1 := dropWhile_length_le Char.isDigit (parseExpSign cs).2
        have h2 := parseExpSign_length cs
        simp only [← h.2, List.length_cons]
        omega
    · simp only [Option.some.injEq, Prod.mk.injEq] at h
      simp [← h.2]

theorem parseMinus_length (cs : List Char) : (parseMinus cs).2.length ≤ cs.length := by
  unfold parseMinus
  split <;> simp

theorem parseNumber_length (cs lexeme r : List Char)
    (h : parseNumber cs = some (lexeme, r)) : r.length < cs.length := by
  unfold parseNumber at h
  split at h
  · simp at h
  · rename_i int cs2 h1
    split at h
    · simp at h
    · rename_i frac cs3 h2
      split at h
      · simp at h
      · rename_i exp cs4 h3
        simp only [Option.some.injEq, Prod.mk.injEq] at h
        have := parseInt_length _ _ _ h1
        have := parseFrac_length _ _ _ h2
        have := parseExp_length _ _ _ h3
        have := parseMinus_length cs
        rw [← h.2]
        omega

theorem parse_progress (fuel : Nat) :
    (∀ (cs : List Char) (v : Json) (r : List Char),
      parseValue fuel cs = .ok (v, r) → r.length < cs.length) ∧
    (∀ (cs : List Char) (acc : List Json) (v : Json) (r : List Char),
      parseElements fuel cs acc = .ok (v, r) → r.length < cs.length) ∧
    (∀ (cs : List Char) (acc : List (List Nat × Json)) (v : Json) (r : List Char),
      parseMembers fuel cs acc = .ok (v, r) → r.length < cs.length) := by
  induction fuel with
  | zero =>
    refine ⟨?_, ?_, ?_⟩
    · intro cs v r h
      simp [parseValue] at h
    · intro cs acc v r h
      simp [parseElements] at h
    · intro cs acc v r h
      simp [parseMembers] at h
  | succ fuel ih =>
    obtain ⟨ihV, ihE, ihM⟩ := ih
    refine ⟨?_, ?_, ?_⟩
    · intro cs v r h
      have hs := skipWs_length_le cs
      rw [parseValue] at h
      split at h
      · simp at h
      · rename_i heq
        simp only [Except.ok.injEq, Prod.mk.injEq] at h
        rw [heq] at hs
        simp only [List.length_cons] at hs
        rw [← h.2]
        omega
      · rename_i heq
        simp only [Except.ok.injEq, Prod.mk.injEq] at h
        rw [heq] at hs
        simp only [List.length_cons] at hs
        rw [← h.2]
        omega
      · rename_i heq
        simp only [Except.ok.injEq, Prod.mk.injEq] at h
        rw [heq] at hs
        simp only [List.length_cons] at hs
        rw [← h.2]
        omega
      · rename_i c r0 _ _ _ heq
        rw [heq] at hs
        simp only [List.length_cons] at hs
        split at h
        · split at h
          · rename_i hb
            simp only [Except.ok.injEq, Prod.mk.injEq] at h
            have := parseStringBody_length _ _ _ _ _ (le_refl _) hb
            rw [← h.2]
            omega
          · simp at h
        · split at h
          · have hs2 := skipWs_length_le r0
            split at h
            · rename_i heq2
              simp only [Except.ok.injEq, Prod.mk.injEq] at h
              rw [heq2] at hs2
              simp only [List.length_cons] at hs2
              rw [← h.2]
              omega
            · have := ihE _ _ _ _ h
              omega
          · split at h
            · have hs2 := skipWs_length_le r0
              split at h
              · rename_i heq2
                simp only [Except.ok.injEq, Prod.mk.injEq] at h
                rw [heq2] at hs2
                simp only [List.length_cons] at hs2
                rw [← h.2]
                omega
              · have := ihM _ _ _ _ h
                omega
            · split at h
              · rename_i hn
                simp only [Except.ok.injEq, Prod.mk.injEq] at h
                have := parseNumber_length _ _ _ hn
                simp only [List.length_cons] at this
                rw [← h.2]
                omega
              · simp at h
    · intro cs acc v r h
      rw [parseElements] at h
      split at h
      · simp at h
      · rename_i v1 r1 hv
        have h1 := ihV _ _ _ hv
        have hs := skipWs_length_le r1
        split at h
        · rename_i heq
          rw [heq] at hs
          simp only [List.length_cons] at hs
          have := ihE _ _ _ _ h
          omega
        · rename_i heq
          simp only [Except.ok.injEq, Prod.mk.injEq] at h
          rw [heq] at hs
          simp only [List.length_cons] at hs
          rw [← h.2]
          omega
        · simp at h
    · intro cs acc v r h
      have hs := skipWs_length_le cs
      rw [parseMembers] at h
      split at h
      · rename_i r0 heq
        rw [heq] at hs
        simp only [List.length_cons] at hs
        split at h
        · simp at h
        · rename_i key r1 hk
          have h1 := parseStringBody_length _ _ _ _ _ (le_refl _) hk
          have hs1 := skipWs_length_le r1
          split at h
          · rename_i r2 heq1
            rw [heq1] at hs1
            simp only [List.length_cons] at hs1
            split at h
            · simp at h
            · rename_i v1 r3 hv
              have h3 := ihV _ _ _ hv
              have hs3 := skipWs_length_le r3
              split at h
              · rename_i heq3
                rw [heq3] at hs3
                simp only [List.length_cons] at hs3
                have := ihM _ _ _ _ h
                omega
              · rename_i heq3
                simp only [Except.ok.injEq, Prod.mk.injEq] at h
                rw [heq3] at hs3
                simp only [List.length_cons] at hs3
                rw [← h.2]
                omega
              · simp at h
          · simp at h
      · simp at h

theorem parse_fuel_suffices (fuel : Nat) :
    (∀ cs : List Char, 2 * cs.length + 1 ≤ fuel →
      parseValue fuel cs ≠ .error .fuel) ∧
    (∀ (cs : List Char) (acc : List Json), 2 * cs.length + 2 ≤ fuel →
      parseElements fuel cs acc ≠ .error .fuel) ∧
    (∀ (cs : List Char) (acc : List (List Nat × Json)), 2 * cs.length + 2 ≤ fuel →
      parseMembers fuel cs acc ≠ .error .fuel) := by
  induction fuel with
  | zero =>
    refine ⟨?_, ?_, ?_⟩
    · intro cs hf
      omega
    · intro cs acc hf
      omega
    · intro cs acc hf
      omega
  | succ fuel ih =>
    obtain ⟨ihV, ihE, ihM⟩ := ih
    refine ⟨?_, ?_, ?_⟩
    · intro cs hf h
      have hs := skipWs_length_le cs
      rw [parseValue] at h
      split at h
      · simp at h
      · simp at h
      · simp at h
      · simp at h
      · rename_i c r0 _ _ _ heq
        rw [heq] at hs
        simp only [List.length_cons] at hs
        split at h
        · split at h <;> simp at h
        · split at h
          · split at h
            · simp at h
            · exact ihE _ _ (by omega) h
          · split at h
            · split at h
              · simp at h
              · exact ihM _ _ (by omega) h
            · split at h <;> simp at h
    · intro cs acc hf h
      rw [parseElements] at h
      split at h
      · rename_i e he
        simp only [Except.error.injEq] at h
        rw [h] at he
        exact ihV _ (by omega) he
      · rename_i v1 r1 hv
        have h1 := (parse_progress fuel).1 _ _ _ hv
        have hs := skipWs_length_le r1
        split at h
        · rename_i heq
          rw [heq] at hs
          simp only [List.length_cons] at hs
          exact ihE _ _ (by omega) h
        · simp at h
        · simp at h
    · intro cs acc hf h
      have hs := skipWs_length_le cs
      rw [parseMembers] at h
      split at h
      · rename_i r0 heq
        rw [heq] at hs
        simp only [List.length_cons] at hs
        split at h
        · simp at h
        · rename_i key r1 hk
          have h1 := parseStringBody_length _ _ _ _ _ (le_refl _) hk
          have hs1 := skipWs_length_le r1
          split at h
          · rename_i r2 heq1
            rw [heq1] at hs1
            simp only [List.length_cons] at hs1
            split at h
            · rename_i e he
              simp only [Except.error.injEq] at h
              rw [h] at he
              exact ihV _ (by omega) he
            · rename_i v1 r3 hv
              have h3 := (parse_progress fuel).1 _ _ _ hv
              have hs3 := skipWs_length_le r3
              split at h
              · rename_i heq3
                rw [heq3] at hs3
                simp only [List.length_cons] at hs3
                exact ihM _ _ (by omega) h
              · simp at h
              · simp at h
          · simp at h
      · simp at h

theorem jsonParse_ne_fuel (text : String) : jsonParse text ≠ .error .fuel := by
  intro h
  unfold jsonParse at h
  split at h
  · rename_i e he
    simp only [Except.error.injEq] at h
    rw [h] at he
    exact (parse_fuel_suffices _).1 text.data (le_refl _) he
  · split at h <;> simp at h

/-! ## Creating an activity -/

/-- C1: for every collection of N activities and every form input whose trimmed name, type
and priority are all non-empty, `createNewActivity` yields a collection of N+1 activities
whose first element is the new activity (trimmed name and notes, the given type and
priority, `isCompleted = false`, `completedTimestamp = null`) and whose remaining elements
are the previous collection in its previous order. -/
theorem createNewActivity_valid_prepends (st : Organizer) (form : FormInput)
    (newId now type priority : String)
    (hname : jsTrim form.activityName ≠ "")
    (htype : form.activityType = some type) (htype' : jsTrim type ≠ "")
    (hprio : form.priorityLevel = some priority) (hprio' : jsTrim priority ≠ "") :
    (createNewActivity st form newId now).1.activities.length = st.activities.length + 1 ∧
    (createNewActivity st form newId now).1.activities =
      { uniqueId := newId
        name := jsTrim form.activityName
        type := type
        priority := priority
        notes := jsTrim form.activityNotes
        isCompleted := false
        createdTimestamp := now
        completedTimestamp := none } :: st.activities := by
  have h1 : truthy (some (jsTrim form.activityName)) = true := (truthy_some _).2 hname
  have h2 : truthy (some type) = true :=
    (truthy_some _).2 (ne_empty_of_jsTrim_ne_empty htype')
  have h3 : truthy (some priority) = true :=
    (truthy_some _).2 (ne_empty_of_jsTrim_ne_empty hprio')
  simp [createNewActivity, h1, h2, h3, htype, hprio]

/-- Witness for C1: a valid form submitted to a collection of one activity. -/
theorem createNewActivity_valid_prepends_witness :
    (createNewActivity ⟨[⟨"k0", "Old", "Academic", "low", "", false, "t0", none⟩], ⟨"", ""⟩⟩
        ⟨" Read ", some "Academic", some "urgent", " ch. 1 "⟩ "k1" "t1").1.activities.length
      = 1 + 1 ∧
    (createNewActivity ⟨[⟨"k0", "Old", "Academic", "low", "", false, "t0", none⟩], ⟨"", ""⟩⟩
        ⟨" Read ", some "Academic", some "urgent", " ch. 1 "⟩ "k1" "t1").1.activities
      = [⟨"k1", "Read", "Academic", "urgent", "ch. 1", false, "t1", none⟩,
          ⟨"k0", "Old", "Academic", "low", "", false, "t0", none⟩] :=
  createNewActivity_valid_prepends
    ⟨[⟨"k0", "Old", "Academic", "low", "", false, "t0", none⟩], ⟨"", ""⟩⟩
    ⟨" Read ", some "Academic", some "urgent", " ch. 1 "⟩ "k1" "t1" "Academic" "urgent"
    (by decide) rfl (by decide) rfl (by decide)

/-- C2, as stated, fails: a type consisting only of white space passes the validation
(only the name is trimmed before the test), so the activity is inserted and a success
message, not an error, is displayed. -/
theorem createNewActivity_whitespace_type_inserted :
    jsTrim " " = "" ∧
    createNewActivity Organizer.empty ⟨"Task", some " ", some "low", ""⟩ "k1" "t1" =
      (⟨[⟨"k1", "Task", " ", "low", "", false, "t1", none⟩], ⟨"", ""⟩⟩,
        [Effect.persistToStorage [⟨"k1", "Task", " ", "low", "", false, "t1", none⟩],
          Effect.renderActivities, Effect.updateSummary, Effect.toggleEmptyState,
          Effect.formReset,
          Effect.displayMessage "Activity created successfully!" MessageType.success]) := by
  decide

/-- C2, amended: for every collection and every form input in which the name is empty or
consists only of white space, or the type or the priority is empty (the empty string or no
entry), `createNewActivity` leaves the state unchanged and its only effect is the error
message "Please complete all required fields!". -/
theorem createNewActivity_invalid_rejected (st : Organizer) (form : FormInput)
    (newId now : String)
    (h : jsTrim form.activityName = "" ∨
      form.activityType = none ∨ form.activityType = some "" ∨
      form.priorityLevel = none ∨ form.priorityLevel = some "") :
    createNewActivity st form newId now =
      (st, [Effect.displayMessage "Please complete all required fields!"
        MessageType.error]) := by
  have h' : (!truthy (some (jsTrim form.activityName)) || !truthy form.activityType ||
      !truthy form.priorityLevel) = true := by
    rcases h with h | h | h | h | h <;> simp [h, truthy]
  simp only [createNewActivity, h', if_true]

/-- Witness for the amended C2: a name made of white space only. -/
theorem createNewActivity_invalid_rejected_witness :
    createNewActivity Organizer.empty ⟨" \t ", some "Academic", some "low", "n"⟩ "k1" "t1" =
      (Organizer.empty, [Effect.displayMessage "Please complete all required fields!"
        MessageType.error]) :=
  createNewActivity_invalid_rejected Organizer.empty
    ⟨" \t ", some "Academic", some "low", "n"⟩ "k1" "t1" (Or.inl (by decide))

/-! ## Toggling completion -/

/-- C3, as stated, fails: an activity completed at `2024-05-01T10:00:00.000Z` and toggled
twice ends completed again, but with the time of the second toggle as its
`completedTimestamp`, not the original one. -/
theorem toggleActivityStatus_twice_new_timestamp :
    (toggleActivityStatus (toggleActivityStatus
        ⟨[⟨"k1", "Task", "Academic", "low", "", true, "2024-04-30T09:00:00.000Z",
            some "2024-05-01T10:00:00.000Z"⟩], ⟨"", ""⟩⟩
        "k1" "2024-05-02T08:00:00.000Z").1 "k1" "2024-05-03T08:00:00.000Z").1.activities =
      [⟨"k1", "Task", "Academic", "low", "", true, "2024-04-30T09:00:00.000Z",
        some "2024-05-03T08:00:00.000Z"⟩] ∧
    (some "2024-05-03T08:00:00.000Z" : Option String) ≠ some "2024-05-01T10:00:00.000Z" := by
  decide

/-- C3, amended: for every collection and every id held by some activity, applying
`toggleActivityStatus` twice (at times `now1`, then `now2`) changes nothing but the
`completedTimestamp` of the first activity with that id, which ends as `null` when the
activity was originally not completed and as `now2` when it was originally completed;
`isCompleted`, every other field and every other activity are as before. Hence the final
`completedTimestamp` equals the original one exactly in two cases: the activity started
not completed with a `null` timestamp, or it started completed with a timestamp equal to
`now2`. -/
theorem toggleActivityStatus_twice (st : Organizer) (activityId now1 now2 : String)
    (h : ∃ a ∈ st.activities, a.uniqueId = activityId) :
    ∃ pre a post, st.activities = pre ++ a :: post ∧
      (∀ b ∈ pre, b.uniqueId ≠ activityId) ∧ a.uniqueId = activityId ∧
      (toggleActivityStatus (toggleActivityStatus st activityId now1).1
          activityId now2).1.activities =
        pre ++ { a with completedTimestamp := if a.isCompleted then some now2 else none }
          :: post ∧
      ((if a.isCompleted then some now2 else none) = a.completedTimestamp ↔
        (a.isCompleted = false ∧ a.completedTimestamp = none) ∨
        (a.isCompleted = true ∧ a.completedTimestamp = some now2)) := by
  have h2 := updateFirst_updateFirst (fun a : Activity => a.uniqueId == activityId)
    (fun a => a.toggle now1) (fun a => a.toggle now2) st.activities (fun _ => rfl)
  rw [toggleActivityStatus_activities, toggleActivityStatus_activities, h2]
  rcases updateFirst_eq_append (fun a : Activity => a.uniqueId == activityId)
      (fun a => (a.toggle now1).toggle now2) st.activities
      (exists_beq_id_of_mem activityId st.activities h) with ⟨pre, a, post, hl, hpre, ha, hu⟩
  refine ⟨pre, a, post, hl, ?_, by simpa using ha, ?_, ?_⟩
  · intro b hb
    simpa using hpre b hb
  · rw [hu, toggle_toggle]
  · cases hc : a.isCompleted
    · simp only [Bool.false_eq_true, if_false, true_and, false_and, or_false]
      exact eq_comm
    · simp only [if_true, Bool.true_eq_false, true_and, false_and, false_or]
      exact eq_comm

/-- Witness for the amended C3: two activities, the second one toggled twice. -/
theorem toggleActivityStatus_twice_witness :
    ∃ pre a post,
      [(⟨"k2", "B", "Fitness", "normal", "", false, "t2", none⟩ : Activity),
        ⟨"k1", "A", "Academic", "low", "", true, "t1", some "t3"⟩] = pre ++ a :: post ∧
      (∀ b ∈ pre, b.uniqueId ≠ "k1") ∧ a.uniqueId = "k1" ∧
      (toggleActivityStatus (toggleActivityStatus
          ⟨[⟨"k2", "B", "Fitness", "normal", "", false, "t2", none⟩,
            ⟨"k1", "A", "Academic", "low", "", true, "t1", some "t3"⟩], ⟨"", ""⟩⟩
          "k1" "t4").1 "k1" "t5").1.activities =
        pre ++ { a with completedTimestamp := if a.isCompleted then some "t5" else none }
          :: post ∧
      ((if a.isCompleted then some "t5" else none) = a.completedTimestamp ↔
        (a.isCompleted = false ∧ a.completedTimestamp = none) ∨
        (a.isCompleted = true ∧ a.completedTimestamp = some "t5")) :=
  toggleActivityStatus_twice
    ⟨[⟨"k2", "B", "Fitness", "normal", "", false, "t2", none⟩,
      ⟨"k1", "A", "Academic", "low", "", true, "t1", some "t3"⟩], ⟨"", ""⟩⟩
    "k1" "t4" "t5" ⟨⟨"k1", "A", "Academic", "low", "", true, "t1", some "t3"⟩, by simp, rfl⟩

/-! ## The completion invariant -/

/-- C4: `isCompleted` is true if and only if `completedTimestamp` is present: this holds in
the empty collection and, when it holds for every activity of a collection, it holds for
every activity of the collection after `createNewActivity` (the new activity included),
`toggleActivityStatus`, `modifyActivity` and `removeActivity`. -/
theorem consistent_invariant :
    (∀ a ∈ Organizer.empty.activities, a.consistent = true) ∧
    (∀ (st : Organizer) (form : FormInput) (newId now : String),
      (∀ a ∈ st.activities, a.consistent = true) →
      ∀ a ∈ (createNewActivity st form newId now).1.activities, a.consistent = true) ∧
    (∀ (st : Organizer) (activityId now : String),
      (∀ a ∈ st.activities, a.consistent = true) →
      ∀ a ∈ (toggleActivityStatus st activityId now).1.activities, a.consistent = true) ∧
    (∀ (st : Organizer) (activityId : String) (reply : Option String),
      (∀ a ∈ st.activities, a.consistent = true) →
      ∀ a ∈ (modifyActivity st activityId reply).1.activities, a.consistent = true) ∧
    (∀ (st : Organizer) (activityId : String) (confirmed : Bool),
      (∀ a ∈ st.activities, a.consistent = true) →
      ∀ a ∈ (removeActivity st activityId confirmed).1.activities, a.consistent = true) := by
  refine ⟨by simp [Organizer.empty], ?_, ?_, ?_, ?_⟩
  · intro st form newId now hst a ha
    simp only [createNewActivity] at ha
    split at ha
    · exact hst a ha
    · rcases List.mem_cons.1 ha with rfl | ha
      · rfl
      · exact hst a ha
  · intro st activityId now hst a ha
    rw [toggleActivityStatus_activities] at ha
    rcases mem_updateFirst _ _ _ _ ha with ha | ⟨b, _, rfl⟩
    · exact hst a ha
    · cases hb : b.isCompleted <;> simp [Activity.consistent, Activity.toggle, hb]
  · intro st activityId reply hst a ha
    cases reply with
    | none =>
      have : (modifyActivity st activityId none).1 = st := by
        unfold modifyActivity
        cases List.findIdx? (fun a => a.uniqueId == activityId) st.activities <;> rfl
      rw [this] at ha
      exact hst a ha
    | some newName =>
      by_cases hn : jsTrim newName = ""
      · have : (modifyActivity st activityId (some newName)).1 = st := by
          unfold modifyActivity
          cases List.findIdx? (fun a => a.uniqueId == activityId) st.activities <;> simp [hn]
        rw [this] at ha
        exact hst a ha
      · rw [modifyActivity_activities st activityId newName hn] at ha
        rcases mem_updateFirst _ _ _ _ ha with ha | ⟨b, hb, rfl⟩
        · exact hst a ha
        · exact hst b hb
  · intro st activityId confirmed hst a ha
    unfold removeActivity at ha
    cases confirmed
    · exact hst a ha
    · exact hst a (List.mem_of_mem_filter ha)

/-- Witness for C4: toggling in a collection with one completed and one pending activity. -/
theorem consistent_invariant_witness :
    ∀ a ∈ (toggleActivityStatus
        ⟨[⟨"k2", "B", "Fitness", "normal", "", false, "t2", none⟩,
          ⟨"k1", "A", "Academic", "low", "", true, "t1", some "t3"⟩], ⟨"", ""⟩⟩
        "k1" "t4").1.activities, a.consistent = true :=
  consistent_invariant.2.2.1
    ⟨[⟨"k2", "B", "Fitness", "normal", "", false, "t2", none⟩,
      ⟨"k1", "A", "Academic", "low", "", true, "t1", some "t3"⟩], ⟨"", ""⟩⟩
    "k1" "t4" (by decide)

/-! ## Filtering -/

/-- C5: for every collection and every filter state, `getFilteredActivities` returns
exactly the activities whose type equals the type filter (when that filter is non-empty)
and whose priority equals the priority filter (when that filter is non-empty), in their
original relative order; with both filters empty it returns the whole collection. The
function only reads the state. -/
theorem getFilteredActivities_spec (st : Organizer) :
    getFilteredActivities st = st.activities.filter (fun a => decide
      ((st.activeFilters.type ≠ "" → a.type = st.activeFilters.type) ∧
        (st.activeFilters.priority ≠ "" → a.priority = st.activeFilters.priority))) ∧
    (getFilteredActivities st).Sublist st.activities ∧
    (∀ a, a ∈ getFilteredActivities st ↔ a ∈ st.activities ∧
      (st.activeFilters.type ≠ "" → a.type = st.activeFilters.type) ∧
      (st.activeFilters.priority ≠ "" → a.priority = st.activeFilters.priority)) ∧
    (st.activeFilters.type = "" → st.activeFilters.priority = "" →
      getFilteredActivities st = st.activities) := by
  have hfun : (fun activity : Activity =>
      let typeMatch := !truthy (some st.activeFilters.type) ||
        activity.type == st.activeFilters.type
      let priorityMatch := !truthy (some st.activeFilters.priority) ||
        activity.priority == st.activeFilters.priority
      typeMatch && priorityMatch) = (fun a => decide
      ((st.activeFilters.type ≠ "" → a.type = st.activeFilters.type) ∧
        (st.activeFilters.priority ≠ "" → a.priority = st.activeFilters.priority))) := by
    funext a
    simp only [not_truthy_or_beq, Bool.decide_and]
  have heq : getFilteredActivities st = st.activities.filter (fun a => decide
      ((st.activeFilters.type ≠ "" → a.type = st.activeFilters.type) ∧
        (st.activeFilters.priority ≠ "" → a.priority = st.activeFilters.priority))) := by
    unfold getFilteredActivities
    rw [hfun]
  refine ⟨heq, ?_, ?_, ?_⟩
  · rw [heq]
    exact List.filter_sublist _
  · intro a
    rw [heq, List.mem_filter, decide_eq_true_eq]
  · intro h1 h2
    rw [heq]
    exact List.filter_eq_self.2 (by intro a _; simp [h1, h2])

/-- Witness for C5: with both filters empty the whole collection is listed. -/
theorem getFilteredActivities_spec_witness :
    getFilteredActivities
        ⟨[⟨"k2", "B", "Fitness", "normal", "", false, "t2", none⟩,
          ⟨"k1", "A", "Academic", "low", "", true, "t1", some "t3"⟩], ⟨"", ""⟩⟩ =
      [⟨"k2", "B", "Fitness", "normal", "", false, "t2", none⟩,
        ⟨"k1", "A", "Academic", "low", "", true, "t1", some "t3"⟩] :=
  (getFilteredActivities_spec
    ⟨[⟨"k2", "B", "Fitness", "normal", "", false, "t2", none⟩,
      ⟨"k1", "A", "Academic", "low", "", true, "t1", some "t3"⟩], ⟨"", ""⟩⟩).2.2.2 rfl rfl

/-! ## Removing -/

/-- C6: for every collection and every id held by exactly one activity, a confirmed
`removeActivity` yields a collection of size N-1 that contains no activity with that id and
is the previous collection with that one activity taken out, every other activity
unchanged and in its original relative order. -/
theorem removeActivity_unique (st : Organizer) (activityId : String)
    (h : st.activities.countP (fun a => a.uniqueId == activityId) = 1) :
    (removeActivity st activityId true).1.activities.length = st.activities.length - 1 ∧
    (∀ a ∈ (removeActivity st activityId true).1.activities, a.uniqueId ≠ activityId) ∧
    ∃ pre a post, st.activities = pre ++ a :: post ∧ a.uniqueId = activityId ∧
      (removeActivity st activityId true).1.activities = pre ++ post := by
  have hact : (removeActivity st activityId true).1.activities =
      st.activities.filter (fun a => !(a.uniqueId == activityId)) := by
    simp [removeActivity, bne]
  rcases filter_not_eq_append_of_countP_one _ _ h with ⟨pre, a, post, hl, ha, hf⟩
  refine ⟨?_, ?_, pre, a, post, hl, by simpa using ha, by rw [hact, hf]⟩
  · rw [hact, hf, hl]
    simp
  · intro b hb
    rw [hact] at hb
    simpa using (List.mem_filter.1 hb).2

/-- Witness for C6: the scenario of section 8, removing the `low` one of three. -/
theorem removeActivity_unique_witness :
    (removeActivity
        ⟨[⟨"k3", "C", "Home", "low", "", false, "t3", none⟩,
          ⟨"k2", "B", "Fitness", "normal", "", false, "t2", none⟩,
          ⟨"k1", "A", "Academic", "urgent", "", true, "t1", some "t4"⟩], ⟨"", ""⟩⟩
        "k3" true).1.activities.length = 3 - 1 :=
  (removeActivity_unique
    ⟨[⟨"k3", "C", "Home", "low", "", false, "t3", none⟩,
      ⟨"k2", "B", "Fitness", "normal", "", false, "t2", none⟩,
      ⟨"k1", "A", "Academic", "urgent", "", true, "t1", some "t4"⟩], ⟨"", ""⟩⟩
    "k3" (by decide)).1

/-! ## Renaming -/

/-- C7: for every collection, every id of an activity in it and every text `newName`: if
`newName` is empty after trimming, `modifyActivity` changes nothing; otherwise the (first)
activity with that id gets `name = trim(newName)` while its other fields, its position and
every other activity stay unchanged. -/
theorem modifyActivity_renames (st : Organizer) (activityId newName : String)
    (h : ∃ a ∈ st.activities, a.uniqueId = activityId) :
    (jsTrim newName = "" → modifyActivity st activityId (some newName) = (st, [])) ∧
    (jsTrim newName ≠ "" →
      ∃ pre a post, st.activities = pre ++ a :: post ∧
        (∀ b ∈ pre, b.uniqueId ≠ activityId) ∧ a.uniqueId = activityId ∧
        (modifyActivity st activityId (some newName)).1.activities =
          pre ++
            { uniqueId := a.uniqueId
              name := jsTrim newName
              type := a.type
              priority := a.priority
              notes := a.notes
              isCompleted := a.isCompleted
              createdTimestamp := a.createdTimestamp
              completedTimestamp := a.completedTimestamp } :: post ∧
        (modifyActivity st activityId (some newName)).1.activeFilters =
          st.activeFilters) := by
  constructor
  · intro hn
    unfold modifyActivity
    cases List.findIdx? (fun a => a.uniqueId == activityId) st.activities <;> simp [hn]
  · intro hn
    rcases updateFirst_eq_append (fun a : Activity => a.uniqueId == activityId)
        (fun a => { a with name := jsTrim newName }) st.activities
        (exists_beq_id_of_mem activityId st.activities h) with ⟨pre, a, post, hl, hpre, ha, hu⟩
    refine ⟨pre, a, post, hl, ?_, by simpa using ha, ?_, ?_⟩
    · intro b hb
      simpa using hpre b hb
    · rw [modifyActivity_activities st activityId newName hn, hu]
    · unfold modifyActivity
      cases List.findIdx? (fun a => a.uniqueId == activityId) st.activities <;> simp [hn]

/-- Witness for C7: in a collection of two activities the second one is renamed with the
reply `"  Read ch. 2 "`, which is trimmed and stored, and is left alone with the reply
`"  "`, which is empty after trimming. -/
theorem modifyActivity_renames_witness :
    (∃ pre a post,
      [(⟨"k2", "B", "Fitness", "normal", "", false, "t2", none⟩ : Activity),
        ⟨"k1", "A", "Academic", "low", "", true, "t1", some "t3"⟩] = pre ++ a :: post ∧
      (∀ b ∈ pre, b.uniqueId ≠ "k1") ∧ a.uniqueId = "k1" ∧
      (modifyActivity
          ⟨[⟨"k2", "B", "Fitness", "normal", "", false, "t2", none⟩,
            ⟨"k1", "A", "Academic", "low", "", true, "t1", some "t3"⟩], ⟨"", ""⟩⟩
          "k1" (some "  Read ch. 2 ")).1.activities =
        pre ++
          { uniqueId := a.uniqueId
            name := jsTrim "  Read ch. 2 "
            type := a.type
            priority := a.priority
            notes := a.notes
            isCompleted := a.isCompleted
            createdTimestamp := a.createdTimestamp
            completedTimestamp := a.completedTimestamp } :: post ∧
      (modifyActivity
          ⟨[⟨"k2", "B", "Fitness", "normal", "", false, "t2", none⟩,
            ⟨"k1", "A", "Academic", "low", "", true, "t1", some "t3"⟩], ⟨"", ""⟩⟩
          "k1" (some "  Read ch. 2 ")).1.activeFilters = ⟨"", ""⟩) ∧
    (modifyActivity
        ⟨[⟨"k2", "B", "Fitness", "normal", "", false, "t2", none⟩,
          ⟨"k1", "A", "Academic", "low", "", true, "t1", some "t3"⟩], ⟨"", ""⟩⟩
        "k1" (some "  Read ch. 2 ")).1.activities =
      [⟨"k2", "B", "Fitness", "normal", "", false, "t2", none⟩,
        ⟨"k1", "Read ch. 2", "Academic", "low", "", true, "t1", some "t3"⟩] ∧
    modifyActivity
        ⟨[⟨"k2", "B", "Fitness", "normal", "", false, "t2", none⟩,
          ⟨"k1", "A", "Academic", "low", "", true, "t1", some "t3"⟩], ⟨"", ""⟩⟩
        "k1" (some "  ") =
      (⟨[⟨"k2", "B", "Fitness", "normal", "", false, "t2", none⟩,
          ⟨"k1", "A", "Academic", "low", "", true, "t1", some "t3"⟩], ⟨"", ""⟩⟩, []) :=
  ⟨(modifyActivity_renames
      ⟨[⟨"k2", "B", "Fitness", "normal", "", false, "t2", none⟩,
        ⟨"k1", "A", "Academic", "low", "", true, "t1", some "t3"⟩], ⟨"", ""⟩⟩
      "k1" "  Read ch. 2 "
      ⟨⟨"k1", "A", "Academic", "low", "", true, "t1", some "t3"⟩, by simp, rfl⟩).2
      (by decide),
    by decide,
    (modifyActivity_renames
      ⟨[⟨"k2", "B", "Fitness", "normal", "", false, "t2", none⟩,
        ⟨"k1", "A", "Academic", "low", "", true, "t1", some "t3"⟩], ⟨"", ""⟩⟩
      "k1" "  " ⟨⟨"k1", "A", "Academic", "low", "", true, "t1", some "t3"⟩, by simp, rfl⟩).1
      (by decide)⟩

/-! ## Unknown ids -/

/-- C10: for every collection and every id that no activity has, `toggleActivityStatus`,
`modifyActivity` and a confirmed `removeActivity` leave the state unchanged and signal no
error: the first two have no effect at all, the third displays no error message. -/
theorem unknown_id_unchanged (st : Organizer) (activityId : String)
    (h : ∀ a ∈ st.activities, a.uniqueId ≠ activityId) :
    (∀ now, toggleActivityStatus st activityId now = (st, [])) ∧
    (∀ reply, modifyActivity st activityId reply = (st, [])) ∧
    (removeActivity st activityId true).1 = st ∧
    (∀ message,
      Effect.displayMessage message MessageType.error ∉
        (removeActivity st activityId true).2) := by
  have hnone : List.findIdx? (fun a => a.uniqueId == activityId) st.activities = none :=
    List.findIdx?_eq_none_iff.2 (beq_id_false_of_ne activityId st.activities h)
  refine ⟨?_, ?_, ?_, ?_⟩
  · intro now
    simp only [toggleActivityStatus, hnone]
  · intro reply
    simp only [modifyActivity, hnone]
  · have hf : st.activities.filter (fun a => a.uniqueId != activityId) = st.activities :=
      List.filter_eq_self.2 (by intro a ha; simpa using h a ha)
    simp only [removeActivity, if_true, hf]
  · intro message
    simp [removeActivity]

/-- Witness for C10: an id absent from a collection of one activity. -/
theorem unknown_id_unchanged_witness :
    (removeActivity ⟨[⟨"k1", "A", "Academic", "low", "", true, "t1", some "t3"⟩], ⟨"", ""⟩⟩
        "zz" true).1 =
      ⟨[⟨"k1", "A", "Academic", "low", "", true, "t1", some "t3"⟩], ⟨"", ""⟩⟩ :=
  (unknown_id_unchanged
    ⟨[⟨"k1", "A", "Academic", "low", "", true, "t1", some "t3"⟩], ⟨"", ""⟩⟩ "zz"
    (by decide)).2.2.1

/-! ## Summary -/

/-- C9: for every collection, `total` is the number of activities of the whole collection,
`completed` the number of those with `isCompleted` true and `pending = total - completed`,
so that `pending + completed = total` and `pending` is never negative, whatever the
filters are; three activities
created in the empty collection give `(3, 0, 3)` and toggling one of them gives
`(3, 1, 2)`. -/
theorem summary_counts :
    (∀ st : Organizer,
      (summary st).total = st.activities.length ∧
      (summary st).completed = st.activities.countP (fun a => a.isCompleted) ∧
      (summary st).pending = (summary st).total - (summary st).completed ∧
      (summary st).pending + (summary st).completed = (summary st).total ∧
      0 ≤ (summary st).pending ∧
      ∀ filters : Filters, summary { st with activeFilters := filters } = summary st) ∧
    (∀ (f1 f2 f3 : FormInput) (id1 id2 id3 t1 t2 t3 : String),
      f1.complete = true → f2.complete = true → f3.complete = true →
      summary (createNewActivity (createNewActivity (createNewActivity Organizer.empty
        f1 id1 t1).1 f2 id2 t2).1 f3 id3 t3).1 = ⟨3, 0, 3⟩ ∧
      ∀ activityId now : String, activityId = id1 ∨ activityId = id2 ∨ activityId = id3 →
        summary (toggleActivityStatus (createNewActivity (createNewActivity
          (createNewActivity Organizer.empty f1 id1 t1).1 f2 id2 t2).1 f3 id3 t3).1
          activityId now).1 = ⟨3, 1, 2⟩) := by
  constructor
  · intro st
    have hle : (st.activities.filter fun a => a.isCompleted).length ≤ st.activities.length :=
      List.length_filter_le _ _
    refine ⟨rfl, ?_, rfl, ?_, ?_, fun _ => rfl⟩
    · simp [summary, List.countP_eq_length_filter]
    · simp [summary]
    · simp only [summary]
      omega
  · intro f1 f2 f3 id1 id2 id3 t1 t2 t3 h1 h2 h3
    rcases createNewActivity_complete Organizer.empty f1 id1 t1 h1 with ⟨a1, hi1, hc1, e1⟩
    rcases createNewActivity_complete (createNewActivity Organizer.empty f1 id1 t1).1
      f2 id2 t2 h2 with ⟨a2, hi2, hc2, e2⟩
    rcases createNewActivity_complete (createNewActivity
      (createNewActivity Organizer.empty f1 id1 t1).1 f2 id2 t2).1
      f3 id3 t3 h3 with ⟨a3, hi3, hc3, e3⟩
    rw [e1] at e2
    rw [e2] at e3
    have e3' : (createNewActivity (createNewActivity (createNewActivity Organizer.empty
        f1 id1 t1).1 f2 id2 t2).1 f3 id3 t3).1.activities = [a3, a2, a1] := by
      rw [e3]; rfl
    constructor
    · simp [summary, e3', hc1, hc2, hc3]
    · intro activityId now hid
      have ht := toggleActivityStatus_activities (createNewActivity (createNewActivity
        (createNewActivity Organizer.empty f1 id1 t1).1 f2 id2 t2).1 f3 id3 t3).1
        activityId now
      rw [e3'] at ht
      by_cases c3 : a3.uniqueId = activityId
      · simp [summary, ht, updateFirst, c3, Activity.toggle, hc1, hc2, hc3]
      · by_cases c2 : a2.uniqueId = activityId
        · simp [summary, ht, updateFirst, c3, c2, Activity.toggle, hc1, hc2, hc3]
        · have c1 : a1.uniqueId = activityId := by
            rcases hid with hid | hid | hid
            · rw [hi1, hid]
            · exact absurd (hi2.trans hid.symm) c2
            · exact absurd (hi3.trans hid.symm) c3
          simp [summary, ht, updateFirst, c3, c2, c1, Activity.toggle, hc1, hc2, hc3]

/-- Witness for C9: the scenario of section 8 (priorities urgent, normal, low). -/
theorem summary_counts_witness :
    summary (createNewActivity (createNewActivity (createNewActivity Organizer.empty
        ⟨"A", some "Professional", some "urgent", ""⟩ "k1" "t1").1
        ⟨"B", some "Academic", some "normal", ""⟩ "k2" "t2").1
        ⟨"C", some "Shopping", some "low", ""⟩ "k3" "t3").1 = ⟨3, 0, 3⟩ ∧
    summary (toggleActivityStatus (createNewActivity (createNewActivity
        (createNewActivity Organizer.empty
        ⟨"A", some "Professional", some "urgent", ""⟩ "k1" "t1").1
        ⟨"B", some "Academic", some "normal", ""⟩ "k2" "t2").1
        ⟨"C", some "Shopping", some "low", ""⟩ "k3" "t3").1 "k1" "t4").1 = ⟨3, 1, 2⟩ :=
  ⟨(summary_counts.2 ⟨"A", some "Professional", some "urgent", ""⟩
      ⟨"B", some "Academic", some "normal", ""⟩ ⟨"C", some "Shopping", some "low", ""⟩
      "k1" "k2" "k3" "t1" "t2" "t3" (by decide) (by decide) (by decide)).1,
    (summary_counts.2 ⟨"A", some "Professional", some "urgent", ""⟩
      ⟨"B", some "Academic", some "normal", ""⟩ ⟨"C", some "Shopping", some "low", ""⟩
      "k1" "k2" "k3" "t1" "t2" "t3" (by decide) (by decide) (by decide)).2 "k1" "t4"
      (Or.inl rfl)⟩

/-! ## Loading -/

/-- C8, as stated, fails: on a stored string that is cut off in the middle of a record
`loadFromStorage` does not return the empty collection, it throws the `SyntaxError` of
`JSON.parse`; and a stored string that is valid JSON but not a collection is returned as
the value it denotes. -/
theorem loadFromStorage_corrupt_throws :
    loadFromStorage (some "[\x7b\"uniqueId\":\"k1\",\"name\":\"A\"") =
      .error .syntaxError ∧
    loadFromStorage (some "5") = .ok (Json.number ['5']) :=
  ⟨rfl, rfl⟩

/-- C8, amended: `loadFromStorage` returns the empty collection when nothing is stored
under the key or the stored string is empty; on every other stored string it does what
`JSON.parse` does on it: it returns the parsed value, or throws `SyntaxError` when the
string is not a JSON text. -/
theorem loadFromStorage_spec :
    loadFromStorage none = .ok (Json.array []) ∧
    loadFromStorage (some "") = .ok (Json.array []) ∧
    ∀ text : String, text ≠ "" →
      loadFromStorage (some text) = jsonParse text ∧
      (loadFromStorage (some text) = .error .syntaxError ∨
        ∃ v, loadFromStorage (some text) = .ok v) := by
  refine ⟨rfl, rfl, ?_⟩
  intro text ht
  have h : loadFromStorage (some text) = jsonParse text := by
    simp only [loadFromStorage, (truthy_some text).2 ht, if_true]
  refine ⟨h, ?_⟩
  rw [h]
  cases hp : jsonParse text with
  | ok v => exact Or.inr ⟨v, rfl⟩
  | error e =>
    cases e with
    | syntaxError => exact Or.inl rfl
    | fuel => exact absurd hp (jsonParse_ne_fuel text)

/-- Witness for the amended C8: a stored empty array. -/
theorem loadFromStorage_spec_witness :
    loadFromStorage (some "[]") = jsonParse "[]" ∧
    (loadFromStorage (some "[]") = .error .syntaxError ∨
      ∃ v, loadFromStorage (some "[]") = .ok v) :=
  loadFromStorage_spec.2.2 "[]" (by decide)

end ActivityOrganizer
